import Mathlib

/-!
Shallow embedding of `src/post_processing_stages/tf_stage.cpp` (the base
class for TensorFlowLite post-processing stages) and proofs about it.

The stage periodically launches an asynchronous inference task on a
low-resolution frame.  The embedding models:

* the configuration record filled in by `TfStage::Read`;
* the launch decision and in-flight future slot of `TfStage::Process`
  (lines 101-118) as a step function over an explicit scheduler state,
  with external events "a frame arrives" and "the running task finishes";
* `TfStage::Configure`'s low-resolution geometry check (lines 66-78);
* the load-time tensor checks of `TfStage::initialise` (lines 48-61);
* `TfStage::yuvToRgb` (lines 126-158), with the C++ `double` literals
  modelled as exact rationals and the `double`→`int` conversion as
  truncation toward zero;
* `TfStage::runInference` (lines 160-182) and `TfStage::Stop` (184-188).

Locks (`future_mutex_`, `output_mutex_`) serialize the critical sections
they guard; the embedding makes each critical section one atomic step of
the transition system, which is exactly what the locks guarantee.
-/

namespace TfStage

/-- Configuration read by `TfStage::Read` from the JSON parameters
(`tf_stage.cpp` lines 16-28).  `refresh_rate` is taken over the
nonnegative integers, the domain of valid frame intervals (default 5,
0 disables inference).  The two normalisation parameters are `float`s in
the source, modelled as rationals. -/
structure TfConfig where
  number_of_threads : Int
  refresh_rate : Nat
  model_file : String
  verbose : Nat
  normalisation_offset : ℚ
  normalisation_scale : ℚ
deriving DecidableEq

/-- Status of the future held in the in-flight slot `future_`:
the asynchronous task is still running, or it has completed
(`future_->wait_for(0) == std::future_status::ready`). -/
inductive TaskStatus where
  | running
  | ready
deriving DecidableEq

/-- Scheduler state: the in-flight slot `future_` (`none` while no task
has ever been launched) together with the number of live inference tasks.
`tasks` is not a C++ variable; it counts launches minus completions so
that the "at most one task exists" invariant is a real statement about
the step semantics rather than about the slot representation. -/
structure SchedState where
  slot : Option TaskStatus
  tasks : Nat
deriving DecidableEq

/-- Initial scheduler state: `future_` is null, no task exists. -/
def schedInit : SchedState := { slot := none, tasks := 0 }

/-- The launch condition of `TfStage::Process` lines 103-104:
`config_->refresh_rate && completed_request.sequence % config_->refresh_rate == 0
 && (!future_ || future_->wait_for(0ns) == ready)`. -/
def launchGate (cfg : TfConfig) (s : SchedState) (seq : Nat) : Bool :=
  decide (cfg.refresh_rate ≠ 0) && decide (seq % cfg.refresh_rate = 0) &&
    (decide (s.slot = none) || decide (s.slot = some TaskStatus.ready))

/-- External events driving the scheduler: a frame with sequence number
`seq` reaches `Process`, or the currently running asynchronous task
finishes. -/
inductive Event where
  | frame (seq : Nat)
  | finish
deriving DecidableEq

/-- One scheduler step.  A `frame` event is the critical section of
`Process` under `future_mutex_` (lines 101-118): if the gate passes, a
new task is launched into the slot; otherwise nothing happens.  A
`finish` event is the asynchronous task completing, which makes the
future ready; finishing is a no-op when no task is running. -/
def schedStep (cfg : TfConfig) (s : SchedState) : Event → SchedState
  | Event.frame seq =>
      if launchGate cfg s seq then
        { slot := some TaskStatus.running, tasks := s.tasks + 1 }
      else s
  | Event.finish =>
      if s.slot = some TaskStatus.running then
        { slot := some TaskStatus.ready, tasks := s.tasks - 1 }
      else s

/-- Run the scheduler from the initial state over a list of events
(an arbitrary interleaving of frame deliveries and task completions). -/
def schedRun (cfg : TfConfig) (es : List Event) : SchedState :=
  es.foldl (schedStep cfg) schedInit

/-- Number of inference launches that occur along a trace of events
starting from state `s`. -/
def countLaunches (cfg : TfConfig) : SchedState → List Event → Nat
  | _, [] => 0
  | s, e :: es =>
      (match e with
        | Event.frame seq => if launchGate cfg s seq then 1 else 0
        | Event.finish => 0) + countLaunches cfg (schedStep cfg s e) es

/-- The inductive invariant tying the task count to the slot: exactly one
task is alive precisely while the slot holds a running future. -/
def goodState (s : SchedState) : Prop :=
  s.tasks = if s.slot = some TaskStatus.running then 1 else 0

/-- `TfStage::Stop` (lines 184-188): `if (future_) future_->wait();`.
When the slot holds a still-running future, waiting blocks until the task
completes, i.e. until the `finish` event has happened; when the future is
already ready (or was never created) the wait returns at once. -/
def stopStage (cfg : TfConfig) (s : SchedState) : SchedState :=
  match s.slot with
  | none => s
  | some _ => schedStep cfg s Event.finish

/-- Width, height and row stride of a stream, as reported by
`app_->StreamDimensions`. -/
structure Geometry where
  w : Nat
  h : Nat
  stride : Nat
deriving DecidableEq

/-- The low-resolution part of `TfStage::Configure` (lines 66-78): if a
low-resolution stream exists but is smaller than the model input in
either dimension (`tf_w_ > lores_w_ || tf_h_ > lores_h_`), a warning is
printed and `lores_stream_` is set to null.  Returns the resulting
`lores_stream_` (with its dimensions) and whether the warning was
emitted; returning at all models that this path never throws. -/
def Configure (tf_w tf_h : Nat) (loresStream : Option Geometry) :
    Option Geometry × Bool :=
  match loresStream with
  | none => (none, false)
  | some g =>
      if tf_w > g.w || tf_h > g.h then (none, true) else (some g, false)

/-- Observable actions of one `TfStage::Process` call: whether a new
inference task was launched, whether `applyResults` was invoked on the
outgoing request, and the boolean return value. -/
structure ProcessTrace where
  launched : Bool
  appliedResults : Bool
  retval : Bool
deriving DecidableEq

/-- `TfStage::Process` (lines 96-124).  If `lores_stream_` is null the
call returns `false` immediately (lines 98-99): no launch decision, no
`applyResults`.  Otherwise the critical section under `future_mutex_`
performs the launch decision (one `frame` scheduler step) and then, under
`output_mutex_`, `applyResults` runs on the request (lines 120-121).
Returns the trace of the call and the successor scheduler state. -/
def ProcessStep (cfg : TfConfig) (lores : Option Geometry) (s : SchedState)
    (seq : Nat) : ProcessTrace × SchedState :=
  match lores with
  | none => ({ launched := false, appliedResults := false, retval := false }, s)
  | some _ =>
      ({ launched := launchGate cfg s seq, appliedResults := true,
         retval := false }, schedStep cfg s (Event.frame seq))

/-- Element type of the model's input tensor, as far as `initialise`
distinguishes it: `kTfLiteUInt8`, `kTfLiteFloat32`, or any other
(unsupported) `TfLiteType`. -/
inductive TfLiteType where
  | uint8
  | float32
  | other
deriving DecidableEq

/-- `sizeof` of one element for the supported tensor types
(`sizeof(uint8_t) = 1`, `sizeof(float) = 4`); none for unsupported. -/
def elemSize : TfLiteType → Option Nat
  | TfLiteType.uint8 => some 1
  | TfLiteType.float32 => some 4
  | TfLiteType.other => none

/-- What `TfStage::initialise` inspects about the loaded model's input
tensor: its declared byte size (`interpreter_->tensor(input)->bytes`) and
its element type. -/
structure TfModel where
  inputBytes : Nat
  inputType : TfLiteType
deriving DecidableEq

/-- The input-tensor validation of `TfStage::initialise` (lines 48-61):
`check = tf_w_ * tf_h_ * 3`, multiplied by the element size for `uint8`
or `float32` input (any other type throws "data type not supported"),
then compared with the tensor's declared byte size (mismatch throws
"size mismatch").  Exceptions are modelled as `Except.error` with the
exception message. -/
def initialiseCheck (tf_w tf_h : Nat) (m : TfModel) : Except String Unit :=
  let size := m.inputBytes
  let check := tf_w * tf_h * 3
  match m.inputType with
  | TfLiteType.uint8 =>
      if check * 1 ≠ size then Except.error "TfStage: Input tensor size mismatch"
      else Except.ok ()
  | TfLiteType.float32 =>
      if check * 4 ≠ size then Except.error "TfStage: Input tensor size mismatch"
      else Except.ok ()
  | TfLiteType.other => Except.error "TfStage: Input tensor data type not supported"

/-- `TfStage::Read` (lines 16-28): after filling the configuration it
calls `initialise()`, so a failing tensor check aborts stage construction
and the configuration is never produced — `Read` happens before any frame
is processed. -/
def ReadStage (tf_w tf_h : Nat) (cfg : TfConfig) (m : TfModel) :
    Except String TfConfig :=
  match initialiseCheck tf_w tf_h m with
  | Except.error e => Except.error e
  | Except.ok _ => Except.ok cfg

/-- The input-filling loop of `TfStage::runInference` (lines 162-175):
`uint8` input is copied as-is, `float32` input is normalised as
`(value - normalisation_offset) / normalisation_scale`. -/
def fillTensor (ty : TfLiteType) (cfg : TfConfig) (tensor_input : List Nat) :
    List ℚ :=
  match ty with
  | TfLiteType.uint8 => tensor_input.map (fun v => (v : ℚ))
  | TfLiteType.float32 =>
      tensor_input.map
        (fun v => ((v : ℚ) - cfg.normalisation_offset) / cfg.normalisation_scale)
  | TfLiteType.other => []

/-- `TfStage::runInference` (lines 160-182) over an abstract result type
`ρ` (the subclass-owned `ResultSet`, updated by the `interpretOutputs`
hook under `output_mutex_`).  The tensor is filled, then the interpreter
is invoked; `invokeOk` is the outcome of `interpreter_->Invoke()`.  On
failure the function throws ("Failed to invoke TFLite") before ever
taking `output_mutex_`, so the shared results come back unchanged; only
on success is `interpretOutputs` applied to them. -/
def runInference {ρ : Type} (ty : TfLiteType) (cfg : TfConfig)
    (tensor_input : List Nat) (invokeOk : Bool) (interpretOutputs : ρ → ρ)
    (results : ρ) : Except String Unit × ρ :=
  let _tensor := fillTensor ty cfg tensor_input
  if invokeOk then (Except.ok (), interpretOutputs results)
  else (Except.error "TfStage: Failed to invoke TFLite", results)

/-- Clearing the low bit: the embedding of the C++ expression `x & ~1`
on a nonnegative value. -/
def clearLow (x : Nat) : Nat := 2 * (x / 2)

/-- Horizontal crop offset of `yuvToRgb` (line 131):
`off_x = ((lores_w_ - tf_w_) / 2) & ~1`. -/
def cropOffX (g : Geometry) (tf_w : Nat) : Nat := clearLow ((g.w - tf_w) / 2)

/-- Vertical crop offset of `yuvToRgb` (line 131):
`off_y = ((lores_h_ - tf_h_) / 2) & ~1`. -/
def cropOffY (g : Geometry) (tf_h : Nat) : Nat := clearLow ((g.h - tf_h) / 2)

/-- The C++ `double`→`int` conversion: truncation toward zero. -/
def truncToInt (q : ℚ) : Int := if 0 ≤ q then ⌊q⌋ else ⌈q⌉

/-- `std::clamp<int>(v, lo, hi)`: `lo` if `v < lo`, `hi` if `hi < v`,
otherwise `v`. -/
def cppClamp (v lo hi : Int) : Int :=
  if v < lo then lo else if hi < v then hi else v

/-- Red channel (line 147): `clamp<int>(Y + 1.402 * (V - 128), 0, 255)`.
The `double` literal is modelled as the exact rational `1.402`. -/
def rgbR (Y V : Nat) : Nat :=
  (cppClamp (truncToInt ((Y : ℚ) + (1.402 : ℚ) * ((V : ℚ) - 128))) 0 255).toNat

/-- Green channel (line 148):
`clamp<int>(Y - 0.345 * (U - 128) - 0.714 * (V - 128), 0, 255)`. -/
def rgbG (Y U V : Nat) : Nat :=
  (cppClamp (truncToInt ((Y : ℚ) - (0.345 : ℚ) * ((U : ℚ) - 128)
      - (0.714 : ℚ) * ((V : ℚ) - 128))) 0 255).toNat

/-- Blue channel (line 149): `clamp<int>(Y + 1.771 * (U - 128), 0, 255)`. -/
def rgbB (Y U : Nat) : Nat :=
  (cppClamp (truncToInt ((Y : ℚ) + (1.771 : ℚ) * ((U : ℚ) - 128))) 0 255).toNat

/-- `TfStage::yuvToRgb` (lines 126-158).  The source frame is the byte
map `src`; the YUV420 planes live at the offsets computed on lines
131-132 and 136-138.  The luma byte for output pixel `(x, y)` is
`src[(y + off_y) * stride + off_x + x]`; the chroma pointers start at
`off_x / 2` into row `(y + off_y) / 2` of the half-stride planes and are
advanced by `x & 1` after each pixel, so at column `x` they have moved
`x / 2` bytes.  Each pixel emits the three clamped channel bytes in
R, G, B order; the output is the concatenation over the row-major pixel
order of the `tf_h * tf_w` output. -/
def yuvToRgb (g : Geometry) (tf_w tf_h : Nat) (src : Nat → Nat) : List Nat :=
  let off_x := cropOffX g tf_w
  let off_y := cropOffY g tf_h
  let src_size := g.h * g.stride
  let src_U_size := (g.h / 2) * (g.stride / 2)
  (List.range tf_h).flatMap fun y =>
    (List.range tf_w).flatMap fun x =>
      let Y := src ((y + off_y) * g.stride + off_x + x)
      let U := src (src_size + ((y + off_y) / 2) * (g.stride / 2) + (off_x / 2 + x / 2))
      let V := src (src_size + src_U_size + ((y + off_y) / 2) * (g.stride / 2)
          + (off_x / 2 + x / 2))
      [rgbR Y V, rgbG Y U V, rgbB Y U]

/-- A concrete configuration with `refresh_rate = 1` (every frame due),
used to instantiate the universally quantified theorems. -/
def cfg0 : TfConfig :=
  { number_of_threads := 2, refresh_rate := 1, model_file := "model.tflite",
    verbose := 0, normalisation_offset := 127.5, normalisation_scale := 127.5 }

/-- The same configuration with inference disabled (`refresh_rate = 0`). -/
def cfgZero : TfConfig :=
  { cfg0 with refresh_rate := 0 }

theorem goodState_init : goodState schedInit := by
  simp [goodState, schedInit]

theorem goodState_step (cfg : TfConfig) (s : SchedState) (e : Event)
    (h : goodState s) : goodState (schedStep cfg s e) := by
  cases e with
  | frame seq =>
      by_cases hg : launchGate cfg s seq = true
      · have hslot : s.slot = none ∨ s.slot = some TaskStatus.ready := by
          simp only [launchGate, Bool.and_eq_true, Bool.or_eq_true,
            decide_eq_true_eq] at hg
          exact hg.2
        have htasks : s.tasks = 0 := by
          rcases hslot with h1 | h1 <;> simp [goodState, h1] at h <;> exact h
        simp [schedStep, hg, goodState, htasks]
      · simp [schedStep, hg, h]
  | finish =>
      by_cases hr : s.slot = some TaskStatus.running
      · have htasks : s.tasks = 1 := by simpa [goodState, hr] using h
        simp [schedStep, hr, goodState, htasks]
      · simp [schedStep, hr, h]

theorem goodState_foldl (cfg : TfConfig) (es : List Event) (s : SchedState)
    (h : goodState s) : goodState (es.foldl (schedStep cfg) s) := by
  induction es generalizing s with
  | nil => exact h
  | cons e es ih => exact ih _ (goodState_step cfg s e h)

theorem goodState_run (cfg : TfConfig) (es : List Event) :
    goodState (schedRun cfg es) :=
  goodState_foldl cfg es schedInit goodState_init

theorem launchGate_eq_true (cfg : TfConfig) (s : SchedState) (seq : Nat) :
    launchGate cfg s seq = true ↔
      cfg.refresh_rate ≠ 0 ∧ seq % cfg.refresh_rate = 0 ∧
        (s.slot = none ∨ s.slot = some TaskStatus.ready) := by
  simp [launchGate, Bool.and_eq_true, Bool.or_eq_true, decide_eq_true_eq,
    and_assoc]

theorem launchGate_of_zero (cfg : TfConfig) (h : cfg.refresh_rate = 0)
    (s : SchedState) (seq : Nat) : launchGate cfg s seq = false := by
  simp [launchGate, h]

theorem countLaunches_of_zero (cfg : TfConfig) (h : cfg.refresh_rate = 0) :
    ∀ (es : List Event) (s : SchedState), countLaunches cfg s es = 0 := by
  intro es
  induction es with
  | nil => intro s; rfl
  | cons e es ih =>
      intro s
      cases e with
      | frame seq => simp [countLaunches, launchGate_of_zero cfg h, ih]
      | finish => simp [countLaunches, ih]

theorem schedRun_of_zero (cfg : TfConfig) (h : cfg.refresh_rate = 0)
    (es : List Event) : schedRun cfg es = schedInit := by
  rw [schedRun]
  induction es with
  | nil => rfl
  | cons e es ih =>
      rw [List.foldl_cons]
      have hstep : schedStep cfg schedInit e = schedInit := by
        cases e with
        | frame seq => simp [schedStep, launchGate_of_zero cfg h]
        | finish => simp [schedStep, schedInit]
      rw [hstep, ih]

theorem slot_ne_none_step (cfg : TfConfig) (s : SchedState) (e : Event)
    (h : s.slot ≠ none) : (schedStep cfg s e).slot ≠ none := by
  cases e with
  | frame seq =>
      by_cases hg : launchGate cfg s seq = true <;> simp [schedStep, hg, h]
  | finish =>
      by_cases hr : s.slot = some TaskStatus.running <;> simp [schedStep, hr, h]

theorem slot_ne_none_foldl (cfg : TfConfig) (es : List Event) :
    ∀ s : SchedState, s.slot ≠ none →
      ((es.foldl (schedStep cfg) s).slot ≠ none) := by
  induction es with
  | nil => intro s h; exact h
  | cons e es ih =>
      intro s h
      exact ih _ (slot_ne_none_step cfg s e h)

theorem slot_none_iff_no_launch (cfg : TfConfig) (es : List Event) :
    ∀ s : SchedState, s.slot = none →
      ((es.foldl (schedStep cfg) s).slot = none ↔ countLaunches cfg s es = 0) := by
  induction es with
  | nil => intro s h; simpa [countLaunches] using h
  | cons e es ih =>
      intro s h
      cases e with
      | frame seq =>
          by_cases hg : launchGate cfg s seq = true
          · have hstep : schedStep cfg s (Event.frame seq) =
                { slot := some TaskStatus.running, tasks := s.tasks + 1 } := by
              simp [schedStep, hg]
            constructor
            · intro hn
              exact absurd (by simpa [List.foldl_cons] using hn)
                (slot_ne_none_foldl cfg es (schedStep cfg s (Event.frame seq))
                  (by rw [hstep]; simp))
            · intro hc
              exfalso
              simp [countLaunches, hg] at hc
          · have hstep : schedStep cfg s (Event.frame seq) = s := by
              simp [schedStep, hg]
            rw [List.foldl_cons, hstep, countLaunches, hstep]
            simpa [hg] using ih s h
      | finish =>
          have hstep : schedStep cfg s Event.finish = s := by
            simp [schedStep, h]
          rw [List.foldl_cons, hstep, countLaunches, hstep]
          simpa using ih s h

/-- Claim C1: for every interleaving of frame deliveries and task
completions, at most one inference task is alive at any instant, and a
frame arriving while the slot holds a still-running task leaves the
scheduler unchanged — the launch is skipped, never overlapped. -/
theorem tf_C1 (cfg : TfConfig) (es : List Event) (seq : Nat) :
    (schedRun cfg es).tasks ≤ 1 ∧
      ((schedRun cfg es).slot = some TaskStatus.running →
        schedStep cfg (schedRun cfg es) (Event.frame seq) = schedRun cfg es) := by
  have hg := goodState_run cfg es
  rw [goodState] at hg
  constructor
  · rw [hg]
    split <;> simp
  · intro hrun
    have hgate : launchGate cfg (schedRun cfg es) seq = false := by
      simp [launchGate, hrun]
    simp [schedStep, hgate]

theorem tf_C1_witness :
    (schedRun cfg0 [Event.frame 0]).tasks ≤ 1 ∧
      schedStep cfg0 (schedRun cfg0 [Event.frame 0]) (Event.frame 3) =
        schedRun cfg0 [Event.frame 0] :=
  ⟨(tf_C1 cfg0 [Event.frame 0] 3).1,
    (tf_C1 cfg0 [Event.frame 0] 3).2 (by decide)⟩

/-- Claim C2: a `Process` call launches an inference task (the task count
grows) exactly when the gate of lines 103-104 passes, which holds iff
`refresh_rate` is nonzero, the sequence number is an exact multiple of
`refresh_rate`, and the slot is either empty (no task ever launched: that
the null slot characterises launch-free traces is the last conjunct) or
holds an already-completed task; with `refresh_rate = 0`, no trace ever
launches anything and the scheduler never leaves its initial state. -/
theorem tf_C2 (cfg : TfConfig) (s : SchedState) (seq : Nat) (es : List Event) :
    ((schedStep cfg s (Event.frame seq)).tasks = s.tasks + 1 ↔
        launchGate cfg s seq = true) ∧
      (launchGate cfg s seq = true ↔
        cfg.refresh_rate ≠ 0 ∧ seq % cfg.refresh_rate = 0 ∧
          (s.slot = none ∨ s.slot = some TaskStatus.ready)) ∧
      (cfg.refresh_rate = 0 → countLaunches cfg schedInit es = 0) ∧
      (cfg.refresh_rate = 0 → schedRun cfg es = schedInit) ∧
      ((schedRun cfg es).slot = none ↔ countLaunches cfg schedInit es = 0) := by
  refine ⟨?_, launchGate_eq_true cfg s seq,
    fun h => countLaunches_of_zero cfg h es schedInit,
    fun h => schedRun_of_zero cfg h es,
    slot_none_iff_no_launch cfg es schedInit rfl⟩
  by_cases hg : launchGate cfg s seq = true
  · simp [schedStep, hg]
  · simp [schedStep, hg]

theorem tf_C2_witness :
    cfgZero.refresh_rate = 0 ∧
      countLaunches cfgZero schedInit [Event.frame 0, Event.frame 5] = 0 ∧
      schedRun cfgZero [Event.frame 0, Event.frame 5] = schedInit :=
  ⟨rfl,
    (tf_C2 cfgZero schedInit 0 [Event.frame 0, Event.frame 5]).2.2.1 rfl,
    (tf_C2 cfgZero schedInit 0 [Event.frame 0, Event.frame 5]).2.2.2.1 rfl⟩

/-- Claim C3 counterexample: the claim asserts some reachable
interleaving launches an inference on a frame whose sequence number is
not a multiple of `refresh_rate`.  This is impossible: the readiness
re-check on line 104 is conjoined (`&&`) with the rate gate of line 103,
not disjoined, so the gate never passes off the rate boundary. -/
theorem tf_C3_counterexample :
    ¬ ∃ (cfg : TfConfig) (es : List Event) (seq : Nat),
        launchGate cfg (schedRun cfg es) seq = true ∧
          seq % cfg.refresh_rate ≠ 0 := by
  rintro ⟨cfg, es, seq, hg, hne⟩
  exact hne ((launchGate_eq_true cfg _ seq).mp hg).2.1

/-- Claim C3 as amended: the launch-gating condition conjoins the
"previous future is ready" re-check with the rate gate, so every launch —
in every reachable state — happens on a frame whose sequence number is an
exact multiple of the (nonzero) `refresh_rate`; no opportunistic
off-boundary re-launch exists. -/
theorem tf_C3_amended (cfg : TfConfig) (es : List Event) (seq : Nat)
    (h : launchGate cfg (schedRun cfg es) seq = true) :
    cfg.refresh_rate ≠ 0 ∧ seq % cfg.refresh_rate = 0 :=
  ⟨((launchGate_eq_true cfg _ seq).mp h).1,
    ((launchGate_eq_true cfg _ seq).mp h).2.1⟩

theorem tf_C3_witness :
    launchGate cfg0 (schedRun cfg0 []) 4 = true ∧
      cfg0.refresh_rate ≠ 0 ∧ 4 % cfg0.refresh_rate = 0 :=
  ⟨by decide, tf_C3_amended cfg0 [] 4 (by decide)⟩

/-- Claim C10: after `Stop`, no inference task is alive in any reachable
state — if a future exists, `Stop` waits on it, so the slot afterwards is
either still empty (nothing was ever launched) or holds a completed
task; the task count is zero either way. -/
theorem tf_C10 (cfg : TfConfig) (es : List Event) :
    (stopStage cfg (schedRun cfg es)).tasks = 0 ∧
      ((stopStage cfg (schedRun cfg es)).slot = none ∨
        (stopStage cfg (schedRun cfg es)).slot = some TaskStatus.ready) := by
  have hg := goodState_run cfg es
  rw [goodState] at hg
  rcases hslot : (schedRun cfg es).slot with _ | st
  · rw [hslot] at hg
    simp at hg
    simp [stopStage, hslot, hg]
  · cases st with
    | running =>
        rw [hslot] at hg
        simp at hg
        simp [stopStage, hslot, schedStep, hg]
    | ready =>
        rw [hslot] at hg
        simp at hg
        simp [stopStage, hslot, schedStep, hg]

/-- Claim C4: when the low-resolution stream is smaller than the model
input in either dimension, `Configure` returns normally with the warning
emitted and the low-resolution path disabled, and every subsequent
`Process` call on the resulting stage returns `false` immediately: no
launch decision is taken, no scheduler state changes, no inference is
attempted. -/
theorem tf_C4 (tf_w tf_h : Nat) (g : Geometry) (cfg : TfConfig)
    (s : SchedState) (seq : Nat) (h : tf_w > g.w ∨ tf_h > g.h) :
    Configure tf_w tf_h (some g) = (none, true) ∧
      (ProcessStep cfg (Configure tf_w tf_h (some g)).1 s seq).1 =
        { launched := false, appliedResults := false, retval := false } ∧
      (ProcessStep cfg (Configure tf_w tf_h (some g)).1 s seq).2 = s := by
  have hcond : (tf_w > g.w || tf_h > g.h) = true := by
    rcases h with h | h <;> simp [h]
  have hconf : Configure tf_w tf_h (some g) = (none, true) := by
    simp [Configure, hcond]
  exact ⟨hconf, by rw [hconf]; rfl, by rw [hconf]; rfl⟩

theorem tf_C4_witness :
    Configure 5 5 (some { w := 4, h := 8, stride := 8 }) = (none, true) ∧
      (ProcessStep cfg0 (Configure 5 5 (some { w := 4, h := 8, stride := 8 })).1
          schedInit 0).1 =
        { launched := false, appliedResults := false, retval := false } ∧
      (ProcessStep cfg0 (Configure 5 5 (some { w := 4, h := 8, stride := 8 })).1
          schedInit 0).2 = schedInit :=
  tf_C4 5 5 { w := 4, h := 8, stride := 8 } cfg0 schedInit 0 (Or.inl (by decide))

/-- Claim C5: `initialise` rejects, at load time, any model whose input
tensor element type is neither `uint8` nor `float32`, and rejects with a
mismatch error any model whose declared input byte size differs from
`tf_w * tf_h * 3 * elementSize`; `Read` propagates either failure, so the
stage is never constructed and no frame is ever processed. -/
theorem tf_C5 (tf_w tf_h : Nat) (m : TfModel) (cfg : TfConfig) :
    (m.inputType = TfLiteType.other →
      initialiseCheck tf_w tf_h m =
        Except.error "TfStage: Input tensor data type not supported") ∧
      (∀ sz : Nat, elemSize m.inputType = some sz →
        tf_w * tf_h * 3 * sz ≠ m.inputBytes →
        initialiseCheck tf_w tf_h m =
          Except.error "TfStage: Input tensor size mismatch") ∧
      (∀ e : String, initialiseCheck tf_w tf_h m = Except.error e →
        ReadStage tf_w tf_h cfg m = Except.error e) := by
  obtain ⟨bytes, ty⟩ := m
  refine ⟨?_, ?_, ?_⟩
  · intro h
    simp only at h
    rw [h]
    rfl
  · intro sz hsz hne
    cases ty with
    | uint8 =>
        simp [elemSize] at hsz
        subst hsz
        simp only at hne
        have hne1 : tf_w * tf_h * 3 ≠ bytes := by simpa using hne
        simp [initialiseCheck, hne1]
    | float32 =>
        simp [elemSize] at hsz
        subst hsz
        simp only at hne
        simp [initialiseCheck, hne]
    | other => simp [elemSize] at hsz
  · intro e he
    simp [ReadStage, he]

theorem tf_C5_witness :
    initialiseCheck 8 8 { inputBytes := 10, inputType := TfLiteType.other } =
        Except.error "TfStage: Input tensor data type not supported" ∧
      initialiseCheck 8 8 { inputBytes := 10, inputType := TfLiteType.float32 } =
        Except.error "TfStage: Input tensor size mismatch" ∧
      ReadStage 8 8 cfg0 { inputBytes := 10, inputType := TfLiteType.float32 } =
        Except.error "TfStage: Input tensor size mismatch" :=
  ⟨(tf_C5 8 8 { inputBytes := 10, inputType := TfLiteType.other } cfg0).1 rfl,
    (tf_C5 8 8 { inputBytes := 10, inputType := TfLiteType.float32 } cfg0).2.1
      4 rfl (by decide),
    (tf_C5 8 8 { inputBytes := 10, inputType := TfLiteType.float32 } cfg0).2.2
      "TfStage: Input tensor size mismatch"
      ((tf_C5 8 8 { inputBytes := 10, inputType := TfLiteType.float32 } cfg0).2.1
        4 rfl (by decide))⟩

/-- Claim C6: when the interpreter invocation fails, `runInference`
raises the invoke error and the shared results come back exactly as they
were; the outcome does not depend on the `interpretOutputs` hook at all,
because the failure happens before the output lock is ever taken. -/
theorem tf_C6 {ρ : Type} (ty : TfLiteType) (cfg : TfConfig)
    (tensor_input : List Nat) (f g : ρ → ρ) (results : ρ) :
    (runInference ty cfg tensor_input false f results).1 =
        Except.error "TfStage: Failed to invoke TFLite" ∧
      (runInference ty cfg tensor_input false f results).2 = results ∧
      runInference ty cfg tensor_input false f results =
        runInference ty cfg tensor_input false g results :=
  ⟨rfl, rfl, rfl⟩

/-- Claim C7 counterexample: the claim asserts `applyResults` runs on
*every* `Process` call, but a call made while the low-resolution path is
disabled (`lores_stream_` null) returns at line 99 before ever reaching
`applyResults`. -/
theorem tf_C7_counterexample :
    (ProcessStep cfg0 none schedInit 0).1.appliedResults = false := rfl

/-- Claim C7 as amended: on every `Process` call in which the
low-resolution stream is configured (not disabled), `applyResults` is
invoked on the outgoing request under the result lock, whether or not an
inference was launched or completed this frame. -/
theorem tf_C7_amended (cfg : TfConfig) (g : Geometry) (s : SchedState)
    (seq : Nat) :
    (ProcessStep cfg (some g) s seq).1.appliedResults = true := rfl

theorem length_flatMap_const {α β : Type} (f : α → List β) (c : Nat)
    (h : ∀ a, (f a).length = c) (l : List α) :
    (l.flatMap f).length = l.length * c := by
  induction l with
  | nil => simp
  | cons a t ih =>
      rw [List.flatMap_cons, List.length_append, h, ih, List.length_cons,
        Nat.succ_mul, Nat.add_comm]

theorem clearLow_mod_two (x : Nat) : clearLow x % 2 = 0 := by
  simp [clearLow, Nat.mul_mod_right]

theorem cppClamp_mem (v : Int) : 0 ≤ cppClamp v 0 255 ∧ cppClamp v 0 255 ≤ 255 := by
  unfold cppClamp
  split
  · omega
  · split <;> omega

theorem cppClamp_toNat_le (v : Int) : (cppClamp v 0 255).toNat ≤ 255 :=
  Int.toNat_le.mpr (by exact_mod_cast (cppClamp_mem v).2)

theorem rgbR_le (Y V : Nat) : rgbR Y V ≤ 255 := cppClamp_toNat_le _

theorem rgbG_le (Y U V : Nat) : rgbG Y U V ≤ 255 := cppClamp_toNat_le _

theorem rgbB_le (Y U : Nat) : rgbB Y U ≤ 255 := cppClamp_toNat_le _

theorem rgbR_center : rgbR 128 128 = 128 := by
  norm_num [rgbR, truncToInt, cppClamp]
  decide

theorem rgbG_center : rgbG 128 128 128 = 128 := by
  norm_num [rgbG, truncToInt, cppClamp]
  decide

theorem rgbB_center : rgbB 128 128 = 128 := by
  norm_num [rgbB, truncToInt, cppClamp]
  decide

theorem yuvToRgb_mem {g : Geometry} {tf_w tf_h : Nat} {src : Nat → Nat}
    {v : Nat} (hv : v ∈ yuvToRgb g tf_w tf_h src) :
    ∃ Y U V : Nat, v = rgbR Y V ∨ v = rgbG Y U V ∨ v = rgbB Y U := by
  simp only [yuvToRgb, List.mem_flatMap, List.mem_range] at hv
  obtain ⟨y, -, x, -, hmem⟩ := hv
  simp only [List.mem_cons, List.not_mem_nil, or_false] at hmem
  exact ⟨_, _, _, hmem⟩

/-- Claim C8: for every geometry at least as large as the model input,
`yuvToRgb` produces exactly `tf_h * tf_w * 3` bytes (in fact it does so
for every geometry), and the crop offsets it uses are exactly
`((source_dim - target_dim) / 2) & ~1` in each dimension, hence even. -/
theorem tf_C8 (g : Geometry) (tf_w tf_h : Nat) (src : Nat → Nat)
    (_hw : tf_w ≤ g.w) (_hh : tf_h ≤ g.h) :
    (yuvToRgb g tf_w tf_h src).length = tf_h * tf_w * 3 ∧
      cropOffX g tf_w = clearLow ((g.w - tf_w) / 2) ∧
      cropOffX g tf_w % 2 = 0 ∧
      cropOffY g tf_h = clearLow ((g.h - tf_h) / 2) ∧
      cropOffY g tf_h % 2 = 0 := by
  refine ⟨?_, rfl, clearLow_mod_two _, rfl, clearLow_mod_two _⟩
  simp only [yuvToRgb]
  rw [length_flatMap_const _ (tf_w * 3) ?hc, List.length_range, Nat.mul_assoc]
  case hc =>
    intro y
    rw [length_flatMap_const _ 3 ?hc2, List.length_range]
    case hc2 =>
      intro x
      rfl

theorem tf_C8_witness :
    (yuvToRgb { w := 4, h := 4, stride := 4 } 2 2 (fun _ => 0)).length =
        2 * 2 * 3 ∧
      cropOffX { w := 4, h := 4, stride := 4 } 2 = clearLow ((4 - 2) / 2) ∧
      cropOffX { w := 4, h := 4, stride := 4 } 2 % 2 = 0 ∧
      cropOffY { w := 4, h := 4, stride := 4 } 2 = clearLow ((4 - 2) / 2) ∧
      cropOffY { w := 4, h := 4, stride := 4 } 2 % 2 = 0 :=
  tf_C8 { w := 4, h := 4, stride := 4 } 2 2 (fun _ => 0) (by decide) (by decide)

/-- Claim C9: every channel byte `yuvToRgb` emits is clamped into
0..255 (the output values are naturals, so the lower bound is inherent),
and on a uniform frame whose every luma and chroma byte is 128 the
conversion formulas give R = G = B = 128 for every output pixel. -/
theorem tf_C9 (g : Geometry) (tf_w tf_h : Nat) (src : Nat → Nat) :
    (∀ v ∈ yuvToRgb g tf_w tf_h src, v ≤ 255) ∧
      (∀ v ∈ yuvToRgb g tf_w tf_h (fun _ => 128), v = 128) := by
  constructor
  · intro v hv
    obtain ⟨Y, U, V, h | h | h⟩ := yuvToRgb_mem hv
    · exact h ▸ rgbR_le Y V
    · exact h ▸ rgbG_le Y U V
    · exact h ▸ rgbB_le Y U
  · intro v hv
    simp only [yuvToRgb, List.mem_flatMap, List.mem_range] at hv
    obtain ⟨y, -, x, -, hmem⟩ := hv
    simp only [List.mem_cons, List.not_mem_nil, or_false] at hmem
    rcases hmem with h | h | h
    · rw [h, rgbR_center]
    · rw [h, rgbG_center]
    · rw [h, rgbB_center]

theorem tf_C9_witness :
    rgbR 128 128 ∈ yuvToRgb { w := 2, h := 2, stride := 2 } 1 1 (fun _ => 128) ∧
      rgbR 128 128 ≤ 255 ∧ rgbR 128 128 = 128 := by
  have hmem :
      rgbR 128 128 ∈ yuvToRgb { w := 2, h := 2, stride := 2 } 1 1 (fun _ => 128) :=
    List.mem_cons_self _ _
  exact ⟨hmem,
    (tf_C9 { w := 2, h := 2, stride := 2 } 1 1 (fun _ => 128)).1 _ hmem,
    (tf_C9 { w := 2, h := 2, stride := 2 } 1 1 (fun _ => 128)).2 _ hmem⟩

end TfStage
